import Mathlib

/-!
Shallow embedding of the session-orchestration layer of `satgalaxy-cli`
(src/core.rs, src/minisat.rs, src/glucose.rs, src/main.rs, src/parser.rs,
src/utils/unix.rs).  Pure Lean models of the Rust code, followed by theorems
settling the specification claims.
-/

namespace Satgalaxy

/-- Output channel of a diagnostic line: Rust `println!` writes to the
process standard output, `eprintln!` to standard error. -/
inductive Channel
  | stdout
  | stderr
deriving DecidableEq, Repr

/-- One emitted diagnostic line: its channel and its text (without the
trailing newline the println macros append). -/
structure Line where
  chan : Channel
  text : String
deriving DecidableEq, Repr

/-- A line carries the DIMACS comment convention when its text begins with
the two characters "c ". -/
def Line.commentMarked (l : Line) : Bool :=
  l.text.data.take 2 = ['c', ' ']

/-- Model of `Stat` (src/core.rs lines 42-50 and the structurally identical
copy in src/minisat.rs lines 160-168).  The three phase durations are
`Option`s filled progressively; `printed` is the at-most-once latch.  The
clock fields (`run_time`, `total_time`, `least_time`) are wall/CPU clocks
read at call time; in the embedding the elapsed values they would yield are
passed as explicit arguments to the operations that read them. -/
structure Stat where
  parsed_time : Option Nat
  simplified_time : Option Nat
  solve_time : Option Nat
  printed : Bool
deriving DecidableEq, Repr

/-- Constructor `Stat::new` (core.rs lines 61-71): all phase durations absent, latch
clear. -/
def Stat.new : Stat :=
  { parsed_time := none, simplified_time := none, solve_time := none,
    printed := false }

/-- Transition `Stat::parsed` (core.rs lines 76-79): records the elapsed parse
duration `d`. -/
def Stat.parsed (st : Stat) (d : Nat) : Stat :=
  { st with parsed_time := some d }

/-- Transition `Stat::simplified` (core.rs lines 80-83). -/
def Stat.simplified (st : Stat) (d : Nat) : Stat :=
  { st with simplified_time := some d }

/-- Transition `Stat::solved` (core.rs lines 84-87). -/
def Stat.solved (st : Stat) (d : Nat) : Stat :=
  { st with solve_time := some d }

/-- The block of statistics lines emitted by `Stat::print` (core.rs lines
93-109 / minisat.rs lines 211-227): optional parse/simplify/solve phase
lines, the total CPU and wall-clock lines, and an optional memory line.
`chan` records which println macro the file uses (core.rs: `println!`,
stdout; minisat.rs: `eprintln!`, stderr).  `total`/`runT` are the elapsed
values of `total_time.elapsed()` and `run_time.elapsed()`; `mem` is the
result of `get_memory()`. -/
def statTexts (st : Stat) (total runT : Nat) (mem : Option Nat) :
    List String :=
  (match st.parsed_time with
   | some v => ["c Parse time:           " ++ toString v]
   | none => []) ++
  (match st.simplified_time with
   | some v => ["c Simplification time:  " ++ toString v]
   | none => []) ++
  (match st.solve_time with
   | some v => ["c Solve time:           " ++ toString v]
   | none => []) ++
  ["c Total time:           " ++ toString total,
   "c Run time:             " ++ toString runT] ++
  (match mem with
   | some v => ["c Memory:               " ++ toString v]
   | none => [])

/-- The statistics texts, each emitted on the channel targeted by the println macro of the defining file. -/
def statLines (chan : Channel) (st : Stat) (total runT : Nat)
    (mem : Option Nat) : List Line :=
  (statTexts st total runT mem).map (fun t => ⟨chan, t⟩)

/-- Method `Stat::print` (core.rs lines 89-113 / minisat.rs lines 207-231).
If the latch is set it returns `false` and emits nothing; otherwise it
emits the statistics block, sets the latch and returns `true`.  Returns
(reported value, updated stat, emitted lines). -/
def Stat.print (st : Stat) (chan : Channel) (total runT : Nat)
    (mem : Option Nat) : Bool × Stat × List Line :=
  if st.printed then (false, st, [])
  else (true, { st with printed := true }, statLines chan st total runT mem)

/-- Instantiation of `Stat::print` as core.rs defines it: every line goes through
`println!`, the process standard output. -/
def corePrint (st : Stat) (total runT : Nat) (mem : Option Nat) :
    Bool × Stat × List Line :=
  st.print Channel.stdout total runT mem

/-- Instantiation of `Stat::print` as minisat.rs defines it (lines 207-231): identical
logic, but every line goes through `eprintln!`, the process standard
error. -/
def minisatPrint (st : Stat) (total runT : Nat) (mem : Option Nat) :
    Bool × Stat × List Line :=
  st.print Channel.stderr total runT mem

/-- Destructor `impl Drop for Stat` (core.rs lines 52-58 / minisat.rs lines 170-176):
calls `print` and, when it reports printed-now, additionally prints
"c Interrupted".  In core.rs both go to stdout; in minisat.rs the stats
and the annotation go to stderr.  `chan` is the stats channel, `ichan` the
annotation channel. -/
def Stat.dropRun (st : Stat) (chan ichan : Channel) (total runT : Nat)
    (mem : Option Nat) : List Line :=
  let r := st.print chan total runT mem
  if r.1 then r.2.2 ++ [⟨ichan, "c Interrupted"⟩] else r.2.2

/-- Result of one firing of a ctrl-c handler: the stat value it leaves
behind, the lines it emitted, and the exit code it terminates the process
with (`none` when the handler returns without terminating). -/
structure HandlerResult where
  stat : Stat
  lines : List Line
  exit : Option Nat
deriving DecidableEq, Repr

/-- The glucose ctrl-c handler (glucose.rs lines 380-387): when the lock on
the shared stat is acquired it calls `print`, emits "c Interrupted" (to
stdout) only when print reported printed-now, and then calls
`std::process::exit(30)`.  When the lock is not acquired the closure
returns without doing anything. -/
def glucoseHandler (lockOk : Bool) (st : Stat) (total runT : Nat)
    (mem : Option Nat) : HandlerResult :=
  if lockOk then
    let r := st.print Channel.stdout total runT mem
    { stat := r.2.1,
      lines := r.2.2 ++ (if r.1 then [⟨Channel.stdout, "c Interrupted"⟩] else []),
      exit := some 30 }
  else
    { stat := st, lines := [], exit := none }

/-- The minisat ctrl-c handler (minisat.rs lines 267-273): when the lock is
acquired it calls `print` — the minisat `Stat::print`, whose statistics
lines all go through `eprintln!` to stderr — and emits "c Interrupted"
via `println!` (stdout) only when print reported printed-now.  It never
calls `exit`: the closure returns and the process keeps running. -/
def minisatHandler (lockOk : Bool) (st : Stat) (total runT : Nat)
    (mem : Option Nat) : HandlerResult :=
  if lockOk then
    let r := st.print Channel.stderr total runT mem
    { stat := r.2.1,
      lines := r.2.2 ++ (if r.1 then [⟨Channel.stdout, "c Interrupted"⟩] else []),
      exit := none }
  else
    { stat := st, lines := [], exit := none }

/-- The tri-state solver outcome (`rssat::solver::RawStatus` /
`satgalaxy::solver::RawStatus`, the return type of `solve_limited`). -/
inductive RawStatus
  | Satisfiable
  | Unsatisfiable
  | Unknown
deriving DecidableEq, Repr

/-- Abstract view of the external SAT engine at the points where
`Arg::run` queries it: `okay` is `solver.okay()` after the elimination
pass, `solve_limited` the status a solve call would return, `vars` the
number of declared variables, `model_value v` the truth value of variable
`v` in the model. -/
structure Engine where
  okay : Bool
  solve_limited : RawStatus
  vars : Nat
  model_value : Nat → Bool

/-- Concatenation of a list of strings in order, as a sequence of
`write!` calls produces. -/
def strConcat : List String → String
  | [] => ""
  | a :: l => a ++ strConcat l

/-- One literal token as `Arg::run` writes it in the Satisfiable branch
(glucose.rs lines 421-427 / minisat.rs lines 303-309): the 1-indexed
variable, prefixed with "-" when false, followed by a space. -/
def litTok (mv : Nat → Bool) (v : Nat) : String :=
  if mv v then toString v ++ " " else "-" ++ toString v ++ " "

/-- The model line written after "SAT": the literal tokens for variables
1..vars (the code iterates `(0..solver.vars()).map(|v| v + 1)`), then
"0" and a newline (`writeln!(output, "0")`). -/
def modelLine (e : Engine) : String :=
  strConcat (((List.range e.vars).map (fun v => v + 1)).map (litTok e.model_value)) ++ "0\n"

/-- Spec-side literal token: the signed decimal literal with no trailing
space; negative exactly when the variable is false in the model. -/
def litTokSpec (mv : Nat → Bool) (v : Nat) : String :=
  if mv v then toString v else "-" ++ toString v

/-- Spec-side model line: the signed literals for variables 1..n and a
final "0", space-separated, terminated by a newline. -/
def modelLineSpec (n : Nat) (mv : Nat → Bool) : String :=
  strConcat (List.intersperse " "
    (((List.range n).map (fun v => v + 1)).map (litTokSpec mv) ++ ["0"])) ++ "\n"

/-- Everything observable from one completed `Arg::run` session:
the bytes written to the OUTPUT sink, the returned exit code, whether
`solve_limited` was invoked, and the diagnostic lines printed along the
way. -/
structure RunResult where
  output : String
  code : Int
  solveCalled : Bool
  diag : List Line
deriving Repr

/-- The tail of `Arg::run` for the glucose engine (glucose.rs lines
398-441), starting after the reader is constructed; minisat.rs lines
280-324 is line-for-line the same logic (its stats lines go to stderr
and its parse failure panics instead of propagating, differences that do
not affect the OUTPUT sink or the exit code).  `parseRes` is the result
of the engine parse call (the `?` on `read_dimacs_from_reader` propagates
an error before `parsed()` is reached); `solve` is the `--solve` flag;
`defaultStatus` is the `Default::default()` placeholder status used when
solving is disabled; `dParse`/`dSimp`/`dSolve` are the phase durations the
clock yields; `total`/`runT`/`mem` are the values read inside `print`.
On parse failure the error propagates with the stat latch still clear:
the ctrl-c closure retains a second `Arc` handle to the stat, so the
`Drop` flush never runs on this path.  Returns the run result (or the
propagated error) and the final state of the shared stat. -/
def glucoseRun (parseRes : Except String Unit) (solve : Bool)
    (defaultStatus : RawStatus) (e : Engine) (st0 : Stat)
    (dParse dSimp dSolve total runT : Nat) (mem : Option Nat) :
    Except String RunResult × Stat :=
  match parseRes with
  | .error msg => (.error msg, st0)
  | .ok () =>
    let st1 := (st0.parsed dParse).simplified dSimp
    if e.okay = false then
      let r := st1.print Channel.stdout total runT mem
      (.ok { output := "UNSAT\n", code := 20, solveCalled := false,
             diag := r.2.2 ++ [⟨Channel.stdout, "UNSATISFIABLE"⟩] }, r.2.1)
    else
      let ret := if solve then e.solve_limited else defaultStatus
      let st2 := st1.solved dSolve
      let r := st2.print Channel.stdout total runT mem
      match ret with
      | .Satisfiable =>
          (.ok { output := "SAT\n" ++ modelLine e, code := 0,
                 solveCalled := solve,
                 diag := r.2.2 ++ [⟨Channel.stdout, "c SATISFIABLE"⟩] }, r.2.1)
      | .Unsatisfiable =>
          (.ok { output := "UNSAT\n", code := 20, solveCalled := solve,
                 diag := r.2.2 ++ [⟨Channel.stdout, "c UNSATISFIABLE"⟩] }, r.2.1)
      | .Unknown =>
          (.ok { output := "UNKNOWN\n", code := 30, solveCalled := solve,
                 diag := r.2.2 ++ [⟨Channel.stdout, "c UNKNOWN"⟩] }, r.2.1)

/-- Function `main` (src/main.rs lines 28-39): on `Ok(code)` it calls
`exit(code)`; on `Err(e)` it prints "c ERROR: ..." to stderr and falls
off the end of the match, so `fn main` returns `()` normally and the
process exit code is 0.  Returns the process exit code and the lines
main itself prints. -/
def mainRun (ret : Except String Int) : Int × List Line :=
  match ret with
  | .ok code => (code, [])
  | .error e => (0, [⟨Channel.stderr, "c ERROR: " ++ e⟩])

/-- Error classes of `std::io::ErrorKind` used by the stream code. -/
inductive IOErrorKind
  | InvalidInput
  | OtherKind
deriving DecidableEq, Repr

/-- Model of `std::io::SeekFrom` as used by `StdinReader::seek`. -/
inductive SeekFrom
  | Start (offset : Nat)
  | FromEnd (offset : Int)
  | Current (offset : Int)
deriving DecidableEq, Repr

/-- Model of `StdinReader` (src/parser.rs lines 10-23): the remaining
unread bytes of the OS standard-input stream, the growable replay
buffer, and the cursor.  Bytes are modelled as `Nat`. -/
structure StdinReader where
  inner : List Nat
  buffer : List Nat
  pos : Nat
deriving DecidableEq, Repr

/-- Constructor `StdinReader::new` (parser.rs lines 16-22) over a standard-input
stream holding the bytes `s`: empty buffer, cursor 0. -/
def StdinReader.mkNew (s : List Nat) : StdinReader :=
  { inner := s, buffer := [], pos := 0 }

/-- Method `StdinReader::read` (parser.rs lines 25-40) with a caller buffer of
capacity `n`.  If the cursor is inside the replay buffer, it copies
`min n (buffer_len - pos)` buffered bytes and advances the cursor.
Otherwise it reads from the OS stream (modelled as yielding
`min n available` bytes), appends the fresh bytes to the replay buffer
and advances the cursor by the count read.  Returns the bytes delivered
and the updated reader. -/
def StdinReader.read (r : StdinReader) (n : Nat) : List Nat × StdinReader :=
  if r.pos < r.buffer.length then
    let k := min n (r.buffer.length - r.pos)
    ((r.buffer.drop r.pos).take k, { r with pos := r.pos + k })
  else
    let chunk := r.inner.take n
    (chunk, { inner := r.inner.drop n, buffer := r.buffer ++ chunk,
              pos := r.pos + chunk.length })

/-- Method `StdinReader::seek` (parser.rs lines 43-75).  The match computes the
candidate position: `Start` uses the offset, `End` is rejected outright,
`Current` rejects a negative result; then a position beyond the buffered
length is rejected, otherwise the cursor is set.  Each `return Err`
happens before `self.pos` is assigned, so the second component is the
reader state after the call: unchanged on every error. -/
def StdinReader.seek (r : StdinReader) (p : SeekFrom) :
    Except (IOErrorKind × String) Nat × StdinReader :=
  let newPos : Except (IOErrorKind × String) Nat :=
    match p with
    | .Start offset => .ok offset
    | .FromEnd _ => .error (.InvalidInput, "SeekFrom::End not supported")
    | .Current offset =>
        if (r.pos : Int) + offset < 0 then
          .error (.InvalidInput, "Seek before start of stream")
        else .ok ((r.pos : Int) + offset).toNat
  match newPos with
  | .error e => (.error e, r)
  | .ok np =>
      if np > r.buffer.length then
        (.error (.InvalidInput, "Cannot seek beyond buffered data"), r)
      else (.ok np, { r with pos := np })

/-- Repeatedly call `read` with block size `bs` until a call delivers no
bytes (a `read` returning 0 is end of stream), concatenating everything
delivered.  `fuel` bounds the number of calls. -/
def StdinReader.readAll (bs : Nat) : Nat → StdinReader → List Nat
  | 0, _ => []
  | fuel + 1, r =>
      let res := r.read bs
      if res.1.isEmpty then [] else res.1 ++ StdinReader.readAll bs fuel res.2

/-- A soft/hard limit pair as returned by `rlimit::getrlimit`. -/
structure RLimit where
  cur : Nat
  hardMax : Nat
deriving DecidableEq, Repr

/-- The platform resource-limit state for the two resources the tool
touches: CPU seconds and address space. -/
structure Platform where
  cpu : RLimit
  addrSpace : RLimit
deriving DecidableEq, Repr

/-- Trace of the platform calls a limiter run performs. -/
inductive PlatformOp
  | getCpu
  | setCpu (cur hardMax : Nat)
  | getAddrSpace
  | setAddrSpace (cur hardMax : Nat)
deriving DecidableEq, Repr

/-- Function `limit_time` (src/utils/unix.rs lines 1-16): a request of 0 succeeds
immediately; otherwise read the current CPU limit pair, fail when the
current soft limit is below the request, else install the request as the
soft limit keeping the hard limit.  Returns the result, the platform
state after the call, and the trace of platform calls made. -/
def limit_time (max_cpu_time : Nat) (pl : Platform) :
    Except String Unit × Platform × List PlatformOp :=
  if max_cpu_time = 0 then (.ok (), pl, [])
  else
    let rlim_cur := pl.cpu.cur
    let rlim_max := pl.cpu.hardMax
    if rlim_cur < max_cpu_time then
      (.error ("Current CPU time limit (" ++ toString rlim_cur ++
        ") is less than the requested limit (" ++ toString max_cpu_time ++ ")"),
       pl, [.getCpu])
    else
      (.ok (), { pl with cpu := { cur := max_cpu_time, hardMax := rlim_max } },
       [.getCpu, .setCpu max_cpu_time rlim_max])

/-- Function `limit_memory` (src/utils/unix.rs lines 18-32): same ratchet over the
address-space resource. -/
def limit_memory (max_memory : Nat) (pl : Platform) :
    Except String Unit × Platform × List PlatformOp :=
  if max_memory = 0 then (.ok (), pl, [])
  else
    let rlim_cur := pl.addrSpace.cur
    let rlim_max := pl.addrSpace.hardMax
    if rlim_cur < max_memory then
      (.error ("Current memory limit (" ++ toString rlim_cur ++
        ") is less than the requested limit (" ++ toString max_memory ++ ")"),
       pl, [.getAddrSpace])
    else
      (.ok (),
       { pl with addrSpace := { cur := max_memory, hardMax := rlim_max } },
       [.getAddrSpace, .setAddrSpace max_memory rlim_max])

/-- Type `SmartPath` (src/parser.rs lines 3-7 / src/core.rs lines 116-120):
the resolved input location.  Paths and parsed URLs are carried as the
original strings. -/
inductive SmartPath
  | FilePath (p : String)
  | Url (u : String)
deriving DecidableEq, Repr

/-- Function `parse_path` (src/parser.rs lines 78-89 / src/core.rs lines 122-131):
`url::Url::parse(s).map(Url).or_else(...)`.  The external URL parser and
the filesystem are oracles: `urlOk s` tells whether `url::Url::parse`
succeeds on `s` (per the spec, any scheme-qualified string does), and
`fsExists s` whether `PathBuf::from(s).exists()`.  URL parsing is tried
first; on its failure the string is a path required to exist; otherwise
the formatted error names the original string. -/
def parse_path (urlOk fsExists : String → Bool) (s : String) :
    Except String SmartPath :=
  if urlOk s then .ok (.Url s)
  else if fsExists s then .ok (.FilePath s)
  else .error ("`" ++ s ++ "` is not a valid URL or file path")

/-! ## Claim theorems -/

/-- C4: `SessionStat.print()` is idempotent with a distinguishing return
value: on a stat whose latch is clear, the first call reports printed-now
(`true`) and emits the statistics block; the immediately following second
call reports already-printed (`false`) and emits nothing, leaving the stat
unchanged. -/
theorem stat_print_idempotent (st : Stat) (chan : Channel)
    (t1 r1 t2 r2 : Nat) (m1 m2 : Option Nat) (h : st.printed = false) :
    (st.print chan t1 r1 m1).1 = true ∧
    (st.print chan t1 r1 m1).2.2 = statLines chan st t1 r1 m1 ∧
    ((st.print chan t1 r1 m1).2.1.print chan t2 r2 m2).1 = false ∧
    ((st.print chan t1 r1 m1).2.1.print chan t2 r2 m2).2.2 = [] ∧
    ((st.print chan t1 r1 m1).2.1.print chan t2 r2 m2).2.1 =
      (st.print chan t1 r1 m1).2.1 := by
  simp [Stat.print, h]

/-- Witness for C4 at a fresh stat. -/
theorem stat_print_idempotent_witness :
    (Stat.new.print Channel.stdout 5 7 none).1 = true ∧
    (Stat.new.print Channel.stdout 5 7 none).2.2 =
      statLines Channel.stdout Stat.new 5 7 none ∧
    ((Stat.new.print Channel.stdout 5 7 none).2.1.print Channel.stdout 9 11 none).1 = false ∧
    ((Stat.new.print Channel.stdout 5 7 none).2.1.print Channel.stdout 9 11 none).2.2 = [] ∧
    ((Stat.new.print Channel.stdout 5 7 none).2.1.print Channel.stdout 9 11 none).2.1 =
      (Stat.new.print Channel.stdout 5 7 none).2.1 :=
  stat_print_idempotent Stat.new Channel.stdout 5 7 9 11 none none rfl

/-- C10: the `Drop` implementation of `Stat` calls `print`; when the latch
was still clear it emits the statistics block followed by the line
"c Interrupted", and when `print` had already been called it emits
nothing. -/
theorem stat_drop_flushes_once (st : Stat) (chan ichan : Channel)
    (total runT : Nat) (mem : Option Nat) :
    (st.printed = false →
      st.dropRun chan ichan total runT mem =
        statLines chan st total runT mem ++ [⟨ichan, "c Interrupted"⟩]) ∧
    (st.printed = true → st.dropRun chan ichan total runT mem = []) := by
  constructor <;> intro h <;> simp [Stat.dropRun, Stat.print, h]

/-- Witness for C10: a never-printed stat flushes and annotates on drop; an
already-printed one drops silently. -/
theorem stat_drop_flushes_once_witness :
    Stat.new.dropRun Channel.stdout Channel.stdout 3 4 none =
      statLines Channel.stdout Stat.new 3 4 none ++
        [⟨Channel.stdout, "c Interrupted"⟩] ∧
    Stat.dropRun { Stat.new with printed := true } Channel.stderr
      Channel.stderr 3 4 none = [] :=
  ⟨(stat_drop_flushes_once Stat.new Channel.stdout Channel.stdout 3 4 none).1 rfl,
   (stat_drop_flushes_once { Stat.new with printed := true } Channel.stderr
     Channel.stderr 3 4 none).2 rfl⟩

/-- C7: for each resource kind, a ceiling of 0 succeeds without any
platform call and without changing platform state; a nonzero ceiling above
the current soft limit fails after only reading, leaving the platform
unchanged; otherwise the request becomes the new soft limit and the hard
limit is kept. -/
theorem resource_limits_ratchet (pl : Platform) (req : Nat) :
    (limit_time 0 pl = (.ok (), pl, []) ∧
     limit_memory 0 pl = (.ok (), pl, [])) ∧
    (req ≠ 0 → pl.cpu.cur < req →
      ∃ msg, limit_time req pl = (.error msg, pl, [.getCpu])) ∧
    (req ≠ 0 → req ≤ pl.cpu.cur →
      limit_time req pl =
        (.ok (), { pl with cpu := { cur := req, hardMax := pl.cpu.hardMax } },
         [.getCpu, .setCpu req pl.cpu.hardMax])) ∧
    (req ≠ 0 → pl.addrSpace.cur < req →
      ∃ msg, limit_memory req pl = (.error msg, pl, [.getAddrSpace])) ∧
    (req ≠ 0 → req ≤ pl.addrSpace.cur →
      limit_memory req pl =
        (.ok (),
         { pl with addrSpace := { cur := req, hardMax := pl.addrSpace.hardMax } },
         [.getAddrSpace, .setAddrSpace req pl.addrSpace.hardMax])) := by
  refine ⟨⟨by simp [limit_time], by simp [limit_memory]⟩, ?_, ?_, ?_, ?_⟩ <;>
    intro h1 h2 <;>
    simp [limit_time, limit_memory, h1, h2, Nat.not_lt.mpr, Nat.lt_irrefl]

/-- Witness for C7: zero request is a strict no-op; requesting 10 when the
soft limit is 5 fails leaving the platform at 5; requesting 4 installs 4
keeping the hard limit 100. -/
theorem resource_limits_ratchet_witness :
    (limit_time 0 ⟨⟨5, 100⟩, ⟨6, 200⟩⟩ = (.ok (), ⟨⟨5, 100⟩, ⟨6, 200⟩⟩, []) ∧
     limit_memory 0 ⟨⟨5, 100⟩, ⟨6, 200⟩⟩ = (.ok (), ⟨⟨5, 100⟩, ⟨6, 200⟩⟩, [])) ∧
    (∃ msg, limit_time 10 ⟨⟨5, 100⟩, ⟨6, 200⟩⟩ =
      (.error msg, ⟨⟨5, 100⟩, ⟨6, 200⟩⟩, [.getCpu])) ∧
    limit_time 4 ⟨⟨5, 100⟩, ⟨6, 200⟩⟩ =
      (.ok (), ⟨⟨4, 100⟩, ⟨6, 200⟩⟩, [.getCpu, .setCpu 4 100]) ∧
    (∃ msg, limit_memory 10 ⟨⟨5, 100⟩, ⟨6, 200⟩⟩ =
      (.error msg, ⟨⟨5, 100⟩, ⟨6, 200⟩⟩, [.getAddrSpace])) ∧
    limit_memory 4 ⟨⟨5, 100⟩, ⟨6, 200⟩⟩ =
      (.ok (), ⟨⟨5, 100⟩, ⟨4, 200⟩⟩, [.getAddrSpace, .setAddrSpace 4 200]) :=
  ⟨(resource_limits_ratchet ⟨⟨5, 100⟩, ⟨6, 200⟩⟩ 10).1,
   (resource_limits_ratchet ⟨⟨5, 100⟩, ⟨6, 200⟩⟩ 10).2.1 (by decide) (by decide),
   (resource_limits_ratchet ⟨⟨5, 100⟩, ⟨6, 200⟩⟩ 4).2.2.1 (by decide) (by decide),
   (resource_limits_ratchet ⟨⟨5, 100⟩, ⟨6, 200⟩⟩ 10).2.2.2.1 (by decide) (by decide),
   (resource_limits_ratchet ⟨⟨5, 100⟩, ⟨6, 200⟩⟩ 4).2.2.2.2 (by decide) (by decide)⟩

/-- C8: resolution tries the URL parser first, so any string it accepts
yields a `Url` whatever the filesystem holds; on URL-parse failure the
string resolves to `FilePath` exactly when the path exists; when neither
interpretation succeeds the result is an error whose message contains the
original string. -/
theorem parse_path_resolution (urlOk fsExists : String → Bool) (s : String) :
    (urlOk s = true → parse_path urlOk fsExists s = .ok (.Url s)) ∧
    (urlOk s = false →
      (parse_path urlOk fsExists s = .ok (.FilePath s) ↔ fsExists s = true)) ∧
    (urlOk s = false → fsExists s = false →
      ∃ msg, parse_path urlOk fsExists s = .error msg ∧
        ∃ t u, msg.data = t ++ s.data ++ u) := by
  refine ⟨fun h => by simp [parse_path, h], fun h => ?_, fun h h2 => ?_⟩
  · cases hf : fsExists s <;> simp [parse_path, h, hf]
  · refine ⟨"`" ++ s ++ "` is not a valid URL or file path",
      by simp [parse_path, h, h2], "\x60".data,
      "\x60 is not a valid URL or file path".data, ?_⟩
    simp [String.data_append]

/-- Witness for C8 on concrete oracles: a URL-parseable string resolves to
`Url` even over an empty filesystem, an existing path to `FilePath`, and a
missing path to an error containing the original string. -/
theorem parse_path_resolution_witness :
    parse_path (fun _ => true) (fun _ => false) "http://example.com/x.cnf" =
      .ok (.Url "http://example.com/x.cnf") ∧
    (parse_path (fun _ => false) (fun _ => true) "/tmp/present.cnf" =
      .ok (.FilePath "/tmp/present.cnf") ↔ true = true) ∧
    (∃ msg, parse_path (fun _ => false) (fun _ => false) "/tmp/absent.cnf" =
      .error msg ∧ ∃ t u, msg.data = t ++ "/tmp/absent.cnf".data ++ u) :=
  ⟨(parse_path_resolution (fun _ => true) (fun _ => false)
      "http://example.com/x.cnf").1 rfl,
   (parse_path_resolution (fun _ => false) (fun _ => true)
      "/tmp/present.cnf").2.1 rfl,
   (parse_path_resolution (fun _ => false) (fun _ => false)
      "/tmp/absent.cnf").2.2 rfl rfl⟩

/-- C2 counterexample: the minisat ctrl-c handler (minisat.rs lines
267-273) does not terminate the process: even when it acquires the lock
and flushes the statistics, it returns with no exit, contradicting the
claim that the handler terminates with the reserved exit code 30. -/
theorem minisat_handler_never_exits :
    (minisatHandler true Stat.new 1 2 none).exit = none ∧
    (minisatHandler true Stat.new 1 2 none).exit ≠ some 30 := by
  constructor <;> simp [minisatHandler, Stat.print, Stat.new]

/-- C2 (amended): when a handler fires having acquired the stat lock, the
statistics are flushed at most once across the interrupt and normal paths
combined — the handler emits the "c Interrupted" annotation exactly when
its print call reported printed-now (the glucose stats block on stdout,
the minisat one on stderr, the annotation on stdout in both), and after
the handler runs a normal `print` reports already-printed and emits
nothing; the glucose handler then terminates the process with exit code
30, while the minisat handler returns without terminating the
process. -/
theorem interrupt_flush_once (st : Stat) (total runT t2 r2 : Nat)
    (mem m2 : Option Nat) :
    (st.printed = false →
      (glucoseHandler true st total runT mem).lines =
        statLines Channel.stdout st total runT mem ++
          [⟨Channel.stdout, "c Interrupted"⟩] ∧
      (minisatHandler true st total runT mem).lines =
        statLines Channel.stderr st total runT mem ++
          [⟨Channel.stdout, "c Interrupted"⟩]) ∧
    (st.printed = true →
      (glucoseHandler true st total runT mem).lines = [] ∧
      (minisatHandler true st total runT mem).lines = []) ∧
    ((glucoseHandler true st total runT mem).stat.print Channel.stdout
        t2 r2 m2).1 = false ∧
    ((glucoseHandler true st total runT mem).stat.print Channel.stdout
        t2 r2 m2).2.2 = [] ∧
    ((minisatHandler true st total runT mem).stat.print Channel.stderr
        t2 r2 m2).2.2 = [] ∧
    (glucoseHandler true st total runT mem).exit = some 30 ∧
    (minisatHandler true st total runT mem).exit = none := by
  refine ⟨fun h => ?_, fun h => ?_, ?_, ?_, ?_, ?_, ?_⟩ <;>
    cases h2 : st.printed <;>
    simp_all [glucoseHandler, minisatHandler, Stat.print]

/-- Witness for C2 (amended) at a fresh stat and at an already-flushed
stat. -/
theorem interrupt_flush_once_witness :
    ((glucoseHandler true Stat.new 1 2 none).lines =
        statLines Channel.stdout Stat.new 1 2 none ++
          [⟨Channel.stdout, "c Interrupted"⟩] ∧
      (minisatHandler true Stat.new 1 2 none).lines =
        statLines Channel.stderr Stat.new 1 2 none ++
          [⟨Channel.stdout, "c Interrupted"⟩]) ∧
    ((glucoseHandler true { Stat.new with printed := true } 1 2 none).lines = [] ∧
     (minisatHandler true { Stat.new with printed := true } 1 2 none).lines = []) ∧
    ((glucoseHandler true Stat.new 1 2 none).stat.print Channel.stdout
        3 4 none).2.2 = [] ∧
    (glucoseHandler true Stat.new 1 2 none).exit = some 30 ∧
    (minisatHandler true Stat.new 1 2 none).exit = none :=
  ⟨(interrupt_flush_once Stat.new 1 2 3 4 none none).1 rfl,
   (interrupt_flush_once { Stat.new with printed := true } 1 2 3 4 none none).2.1 rfl,
   (interrupt_flush_once Stat.new 1 2 3 4 none none).2.2.2.1,
   (interrupt_flush_once Stat.new 1 2 3 4 none none).2.2.2.2.2.1,
   (interrupt_flush_once Stat.new 1 2 3 4 none none).2.2.2.2.2.2⟩

/-- Helper: with a positive block size and enough fuel, iterated reads
drain exactly the unread buffered bytes followed by the remaining OS
stream. -/
theorem readAll_drains (bs : Nat) (hbs : 1 ≤ bs) :
    ∀ fuel r, r.pos ≤ r.buffer.length →
      r.inner.length + (r.buffer.length - r.pos) ≤ fuel →
      StdinReader.readAll bs fuel r = r.buffer.drop r.pos ++ r.inner := by
  intro fuel
  induction fuel with
  | zero =>
      intro r hr hf
      have h1 : r.inner.length = 0 := by omega
      have h2 : r.buffer.length ≤ r.pos := by omega
      simp [StdinReader.readAll, List.eq_nil_of_length_eq_zero h1,
        List.drop_eq_nil_of_le h2]
  | succ fuel ih =>
      intro r hr hf
      by_cases hc : r.pos < r.buffer.length
      · have hk1 : 1 ≤ min bs (r.buffer.length - r.pos) := by omega
        have hchunklen :
            ((r.buffer.drop r.pos).take (min bs (r.buffer.length - r.pos))).length =
              min bs (r.buffer.length - r.pos) := by
          simp [List.length_take, List.length_drop]
        have hne :
            ((r.buffer.drop r.pos).take (min bs (r.buffer.length - r.pos))).isEmpty = false := by
          cases hE : (r.buffer.drop r.pos).take (min bs (r.buffer.length - r.pos)) with
          | nil => rw [hE] at hchunklen; simp at hchunklen; omega
          | cons a l => simp
        rw [StdinReader.readAll]
        simp only [StdinReader.read, if_pos hc, hne, Bool.false_eq_true,
          if_false]
        rw [ih _ (by simp; omega) (by simp; omega)]
        simp only []
        rw [← List.drop_drop, ← List.append_assoc, List.take_append_drop]
      · have hpos : r.pos = r.buffer.length := by omega
        rcases hi : r.inner with _ | ⟨x, rest⟩
        · rw [StdinReader.readAll]
          simp [StdinReader.read, hc, hi, hpos, List.drop_eq_nil_of_le]
        · have h1 : 1 ≤ r.inner.length := by rw [hi]; simp
          have htk : (r.inner.take bs).isEmpty = false := by
            rw [hi]
            cases bs with
            | zero => omega
            | succ b => simp
          rw [StdinReader.readAll]
          simp only [StdinReader.read, if_neg hc, htk, Bool.false_eq_true,
            if_false]
          rw [ih _ (by simp [hpos]) ?_]
          · have e1 : List.drop (r.pos + (r.inner.take bs).length)
                (r.buffer ++ r.inner.take bs) = [] :=
              List.drop_eq_nil_of_le (by simp [hpos])
            have e2 : List.drop r.pos r.buffer = [] :=
              List.drop_eq_nil_of_le (by omega)
            rw [e1, e2, List.nil_append, List.nil_append, List.take_append_drop]
            exact hi
          · simp only [List.length_append, List.length_drop, List.length_take, hpos]
            omega

/-- Helper: seek with an absolute offset, written as the single branch
the source takes. -/
theorem seek_start_eq (r : StdinReader) (off : Nat) :
    r.seek (.Start off) =
      if off > r.buffer.length then
        (.error (.InvalidInput, "Cannot seek beyond buffered data"), r)
      else (.ok off, { r with pos := off }) := rfl

/-- Helper: seek relative to the end is always rejected. -/
theorem seek_fromEnd_eq (r : StdinReader) (o : Int) :
    r.seek (.FromEnd o) =
      (.error (.InvalidInput, "SeekFrom::End not supported"), r) := rfl

/-- Helper: seek relative to the cursor, unfolded. -/
theorem seek_current_eq (r : StdinReader) (o : Int) :
    r.seek (.Current o) =
      if (r.pos : Int) + o < 0 then
        (.error (.InvalidInput, "Seek before start of stream"), r)
      else if ((r.pos : Int) + o).toNat > r.buffer.length then
        (.error (.InvalidInput, "Cannot seek beyond buffered data"), r)
      else (.ok ((r.pos : Int) + o).toNat,
            { r with pos := ((r.pos : Int) + o).toNat }) := by
  by_cases h0 : (r.pos : Int) + o < 0 <;>
    simp [StdinReader.seek, h0]

/-- C5: console-stream replay is exact — for any bytes `s` on standard
input and any first-read size `n`, reading `n` bytes, seeking back to
position 0 and then draining the stream yields exactly `s`, the same bytes
a single forward drain of a fresh stream yields. -/
theorem stdin_replay_exact (s : List Nat) (n bs fuel : Nat)
    (hbs : 1 ≤ bs) (hf : s.length ≤ fuel) :
    ∃ r2 : StdinReader,
      ((StdinReader.mkNew s).read n).2.seek (.Start 0) = (.ok 0, r2) ∧
      StdinReader.readAll bs fuel r2 = s ∧
      StdinReader.readAll bs fuel (StdinReader.mkNew s) = s := by
  refine ⟨{ inner := s.drop n, buffer := s.take n, pos := 0 }, ?_, ?_, ?_⟩
  · simp [StdinReader.mkNew, StdinReader.read, StdinReader.seek]
  · rw [readAll_drains bs hbs fuel _ (by simp) ?_]
    · simp [List.take_append_drop]
    · simp only [List.length_drop, List.length_take, Nat.sub_zero]
      omega
  · rw [readAll_drains bs hbs fuel _ (by simp [StdinReader.mkNew]) ?_] <;>
      simp [StdinReader.mkNew]
    omega

/-- Witness for C5 with the three-byte stream of the spec: read 2 bytes, seek
back to 0, drain, and compare with a fresh forward drain. -/
theorem stdin_replay_exact_witness :
    ∃ r2 : StdinReader,
      ((StdinReader.mkNew [11, 22, 33]).read 2).2.seek (.Start 0) = (.ok 0, r2) ∧
      StdinReader.readAll 1 3 r2 = [11, 22, 33] ∧
      StdinReader.readAll 1 3 (StdinReader.mkNew [11, 22, 33]) = [11, 22, 33] :=
  stdin_replay_exact [11, 22, 33] 2 1 3 (by decide) (by decide)

/-- C6: on a console-backed stream satisfying the cursor invariant, a read
preserves `pos ≤ buffered_length` and only appends to the replay buffer;
a seek never changes the buffer, an in-range absolute seek succeeds and
sets the cursor, an out-of-range absolute seek fails with an
invalid-input error leaving the reader unchanged, every successful seek
lands the cursor in range, and every failing seek is an invalid-input
error that leaves the reader unchanged. -/
theorem stdin_reader_invariants (r : StdinReader) (n : Nat) (p : SeekFrom)
    (hinv : r.pos ≤ r.buffer.length) :
    ((r.read n).2.pos ≤ (r.read n).2.buffer.length ∧
     ∃ t, (r.read n).2.buffer = r.buffer ++ t) ∧
    (r.seek p).2.buffer = r.buffer ∧
    (∀ off, off ≤ r.buffer.length →
      r.seek (.Start off) = (.ok off, { r with pos := off })) ∧
    (∀ off, r.buffer.length < off →
      r.seek (.Start off) =
        (.error (.InvalidInput, "Cannot seek beyond buffered data"), r)) ∧
    (∀ np, (r.seek p).1 = .ok np →
      (r.seek p).2 = { r with pos := np } ∧ np ≤ r.buffer.length) ∧
    (∀ e, (r.seek p).1 = .error e →
      (r.seek p).2 = r ∧ e.1 = IOErrorKind.InvalidInput) := by
  refine ⟨?_, ?_, ?_, ?_, ?_, ?_⟩
  · by_cases hc : r.pos < r.buffer.length
    · refine ⟨?_, [], by simp [StdinReader.read, hc]⟩
      simp [StdinReader.read, hc]
      omega
    · refine ⟨?_, r.inner.take n, by simp [StdinReader.read, hc]⟩
      simp [StdinReader.read, hc]
      omega
  · rcases p with off | o | o
    · rw [seek_start_eq]; split <;> rfl
    · rw [seek_fromEnd_eq]
    · rw [seek_current_eq]; split
      · rfl
      · split <;> rfl
  · intro off hoff
    rw [seek_start_eq, if_neg (by omega)]
  · intro off hoff
    rw [seek_start_eq, if_pos (by omega)]
  · intro np hnp
    rcases p with off | o | o
    · rw [seek_start_eq] at hnp ⊢
      by_cases hb : off > r.buffer.length
      · rw [if_pos hb] at hnp; exact absurd hnp (by simp)
      · rw [if_neg hb] at hnp ⊢
        simp at hnp
        subst hnp
        exact ⟨rfl, by omega⟩
    · rw [seek_fromEnd_eq] at hnp; exact absurd hnp (by simp)
    · rw [seek_current_eq] at hnp ⊢
      by_cases h0 : (r.pos : Int) + o < 0
      · rw [if_pos h0] at hnp; exact absurd hnp (by simp)
      · rw [if_neg h0] at hnp ⊢
        by_cases hb : ((r.pos : Int) + o).toNat > r.buffer.length
        · rw [if_pos hb] at hnp; exact absurd hnp (by simp)
        · rw [if_neg hb] at hnp ⊢
          simp at hnp
          subst hnp
          exact ⟨rfl, by omega⟩
  · intro e he
    rcases p with off | o | o
    · rw [seek_start_eq] at he ⊢
      by_cases hb : off > r.buffer.length
      · rw [if_pos hb] at he ⊢
        simp at he
        subst he
        exact ⟨rfl, rfl⟩
      · rw [if_neg hb] at he; exact absurd he (by simp)
    · rw [seek_fromEnd_eq] at he ⊢
      simp at he
      subst he
      exact ⟨rfl, rfl⟩
    · rw [seek_current_eq] at he ⊢
      by_cases h0 : (r.pos : Int) + o < 0
      · rw [if_pos h0] at he ⊢
        simp at he
        subst he
        exact ⟨rfl, rfl⟩
      · rw [if_neg h0] at he ⊢
        by_cases hb : ((r.pos : Int) + o).toNat > r.buffer.length
        · rw [if_pos hb] at he ⊢
          simp at he
          subst he
          exact ⟨rfl, rfl⟩
        · rw [if_neg hb] at he; exact absurd he (by simp)

/-- Witness for C6 at a concrete partly-read reader. -/
theorem stdin_reader_invariants_witness :
    ((let r : StdinReader := ⟨[7, 8], [1, 2, 3], 1⟩
      ((r.read 4).2.pos ≤ (r.read 4).2.buffer.length ∧
       ∃ t, (r.read 4).2.buffer = r.buffer ++ t) ∧
      (r.seek (.Current 1)).2.buffer = r.buffer ∧
      r.seek (.Start 3) = (.ok 3, { r with pos := 3 }) ∧
      r.seek (.Start 4) =
        (.error (.InvalidInput, "Cannot seek beyond buffered data"), r))) := by
  have h := stdin_reader_invariants ⟨[7, 8], [1, 2, 3], 1⟩ 4
    (SeekFrom.Current 1) (by decide)
  exact ⟨h.1, h.2.1, h.2.2.1 3 (by decide), h.2.2.2.1 4 (by decide)⟩

/-- Helper: sequentially writing each token followed by a space and then a
final "0" produces exactly the space-separated token list ending in
"0". -/
theorem strConcat_sep (toks : List String) :
    strConcat (toks.map (fun t => t ++ " ")) ++ "0" =
    strConcat (List.intersperse " " (toks ++ ["0"])) := by
  induction toks with
  | nil => simp [strConcat]
  | cons a toks ih =>
      cases toks with
      | nil => simp [strConcat, String.append_assoc]
      | cons b l =>
          simp only [List.map_cons, List.cons_append,
            List.intersperse_cons_cons, strConcat, List.append_eq]
          rw [List.cons_append] at ih
          conv_rhs => rw [← ih]
          simp only [List.map_cons, strConcat, String.append_assoc]

/-- Helper: the model line the code writes equals the spec-side
space-separated signed-literal line. -/
theorem modelLine_eq_spec (e : Engine) :
    modelLine e = modelLineSpec e.vars e.model_value := by
  unfold modelLine modelLineSpec
  have hmap : ((List.range e.vars).map (fun v => v + 1)).map (litTok e.model_value) =
      (((List.range e.vars).map (fun v => v + 1)).map (litTokSpec e.model_value)).map
        (fun t => t ++ " ") := by
    rw [List.map_map, List.map_map, List.map_map]
    apply List.map_congr_left
    intro v _
    by_cases h : e.model_value (v + 1) <;>
      simp [litTok, litTokSpec, h, Function.comp, String.append_assoc]
  rw [hmap]
  have h0 : "0\n" = "0" ++ "\n" := rfl
  rw [h0, ← String.append_assoc, strConcat_sep]

/-- C1: every session that runs to completion writes exactly one of the
tokens "SAT\n" (followed by the space-separated signed 1-indexed literal
line, one literal per declared variable, negative when false, terminated
by "0" and a newline), "UNSAT\n" or "UNKNOWN\n" to the OUTPUT sink, with
exit code 0 / 20 / 30 respectively; when the engine reports infeasibility
after simplification the session returns 20 and writes "UNSAT\n" without
any solve call. -/
theorem session_output_exit (solve : Bool) (defaultStatus : RawStatus)
    (e : Engine) (st0 : Stat) (dParse dSimp dSolve total runT : Nat)
    (mem : Option Nat) (res : RunResult)
    (hres : (glucoseRun (.ok ()) solve defaultStatus e st0 dParse dSimp
      dSolve total runT mem).1 = .ok res) :
    ((res.output = "SAT\n" ++ modelLineSpec e.vars e.model_value ∧
        res.code = 0) ∨
     (res.output = "UNSAT\n" ∧ res.code = 20) ∨
     (res.output = "UNKNOWN\n" ∧ res.code = 30)) ∧
    (e.okay = false →
      res.output = "UNSAT\n" ∧ res.code = 20 ∧ res.solveCalled = false) ∧
    (e.okay = true → solve = true →
      (e.solve_limited = .Satisfiable →
        res.output = "SAT\n" ++ modelLineSpec e.vars e.model_value ∧
          res.code = 0) ∧
      (e.solve_limited = .Unsatisfiable →
        res.output = "UNSAT\n" ∧ res.code = 20) ∧
      (e.solve_limited = .Unknown →
        res.output = "UNKNOWN\n" ∧ res.code = 30)) := by
  cases he : e.okay with
  | false =>
      simp [glucoseRun, he] at hres
      subst hres
      simp
  | true =>
      rcases hret : (if solve then e.solve_limited else defaultStatus) with _ | _ | _ <;>
        simp [glucoseRun, he, hret] at hres <;>
        subst hres <;>
        simp [he, modelLine_eq_spec] <;>
        intro hs <;>
        rw [hs] at hret <;>
        simp_all

/-- Witness for C1: an infeasible-after-simplification session writes
"UNSAT\n", exits 20 and never calls solve. -/
theorem session_output_exit_witness :
    (({ output := "UNSAT\n", code := 20, solveCalled := false,
        diag := statLines Channel.stdout ((Stat.new.parsed 1).simplified 1)
            5 7 none ++ [⟨Channel.stdout, "UNSATISFIABLE"⟩] } : RunResult).output
        = "UNSAT\n" ∧
     ({ output := "UNSAT\n", code := 20, solveCalled := false,
        diag := statLines Channel.stdout ((Stat.new.parsed 1).simplified 1)
            5 7 none ++ [⟨Channel.stdout, "UNSATISFIABLE"⟩] } : RunResult).code
        = 20 ∧
     ({ output := "UNSAT\n", code := 20, solveCalled := false,
        diag := statLines Channel.stdout ((Stat.new.parsed 1).simplified 1)
            5 7 none ++ [⟨Channel.stdout, "UNSATISFIABLE"⟩] } : RunResult).solveCalled
        = false) :=
  (session_output_exit true RawStatus.Unknown
    ⟨false, RawStatus.Unknown, 1, fun _ => true⟩ Stat.new 1 1 1 5 7 none
    { output := "UNSAT\n", code := 20, solveCalled := false,
      diag := statLines Channel.stdout ((Stat.new.parsed 1).simplified 1)
          5 7 none ++ [⟨Channel.stdout, "UNSATISFIABLE"⟩] }
    (by simp [glucoseRun, Stat.print, Stat.new, Stat.parsed, Stat.simplified])).2.1 rfl

/-- C3: evaluation of the engine-parse-failure path at a failing input.
When the engine parse fails, `Arg::run` propagates the error with the
stat latch still clear (no flush: the second `Arc` handle held by the ctrl-c closure
keeps the stat alive, so its `Drop` never runs), and `main` prints
"c ERROR: ..." to stderr and returns normally — the process exits with
code 0, a reserved code, contradicting the claimed non-zero non-reserved
exit. -/
theorem engine_error_exits_zero :
    (mainRun ((glucoseRun (.error "PARSE ERROR! Unexpected char") true
      RawStatus.Unknown ⟨true, RawStatus.Satisfiable, 1, fun _ => true⟩
      Stat.new 0 0 0 5 7 none).1.map RunResult.code)).1 = 0 ∧
    (glucoseRun (.error "PARSE ERROR! Unexpected char") true
      RawStatus.Unknown ⟨true, RawStatus.Satisfiable, 1, fun _ => true⟩
      Stat.new 0 0 0 5 7 none).2.printed = false ∧
    (mainRun ((glucoseRun (.error "PARSE ERROR! Unexpected char") true
      RawStatus.Unknown ⟨true, RawStatus.Satisfiable, 1, fun _ => true⟩
      Stat.new 0 0 0 5 7 none).1.map RunResult.code)).2 =
      [⟨Channel.stderr, "c ERROR: PARSE ERROR! Unexpected char"⟩] :=
  ⟨rfl, rfl, rfl⟩

/-- Helper: every statistics text begins with the comment mark "c ". -/
theorem statTexts_comment (st : Stat) (total runT : Nat) (mem : Option Nat) :
    ∀ t ∈ statTexts st total runT mem, t.data.take 2 = ['c', ' '] := by
  intro t ht
  have hp : ∀ (a b : String), a.data.take 2 = ['c', ' '] →
      2 ≤ a.data.length → (a ++ b).data.take 2 = ['c', ' '] := by
    intro a b h hl
    rw [String.data_append, List.take_append_of_le_length hl, h]
  simp only [statTexts, List.mem_append] at ht
  rcases ht with (((h | h) | h) | h) | h
  · rcases ho : st.parsed_time with _ | p <;> rw [ho] at h <;> simp at h
    subst h
    exact hp _ _ (by decide) (by decide)
  · rcases ho : st.simplified_time with _ | q <;> rw [ho] at h <;> simp at h
    subst h
    exact hp _ _ (by decide) (by decide)
  · rcases ho : st.solve_time with _ | w <;> rw [ho] at h <;> simp at h
    subst h
    exact hp _ _ (by decide) (by decide)
  · simp at h
    rcases h with h | h <;> subst h <;> exact hp _ _ (by decide) (by decide)
  · rcases ho : mem with _ | m <;> rw [ho] at h <;> simp at h
    subst h
    exact hp _ _ (by decide) (by decide)

/-- Helper: every line of a statistics block sits on the channel of the block
and carries the comment mark. -/
theorem statLines_chan_comment (chan : Channel) (st : Stat)
    (total runT : Nat) (mem : Option Nat) :
    ∀ l ∈ statLines chan st total runT mem,
      l.chan = chan ∧ l.commentMarked = true := by
  intro l hl
  rcases List.mem_map.mp hl with ⟨t, ht, rfl⟩
  exact ⟨rfl, by
    have := statTexts_comment st total runT mem t ht
    simp [Line.commentMarked, this]⟩

/-- C9 counterexample: the minisat `Stat::print` emits its timing lines on
standard error (minisat.rs uses `eprintln!`), and the glucose
pre-solve-infeasibility path prints the announcement "UNSATISFIABLE" with
no "c " prefix (glucose.rs line 406) — both contradict "written to
standard output and prefixed with c ". -/
theorem diag_channel_counterexample :
    (∃ l ∈ (minisatPrint (Stat.new.parsed 3) 5 7 none).2.2,
       l.chan = Channel.stderr ∧ l.chan ≠ Channel.stdout) ∧
    (∃ res, (glucoseRun (.ok ()) true RawStatus.Unknown
        ⟨false, RawStatus.Unknown, 0, fun _ => false⟩ Stat.new
        1 1 1 5 7 none).1 = .ok res ∧
      ⟨Channel.stdout, "UNSATISFIABLE"⟩ ∈ res.diag ∧
      Line.commentMarked ⟨Channel.stdout, "UNSATISFIABLE"⟩ = false) := by
  constructor
  · exact ⟨⟨Channel.stderr, "c Parse time:           3"⟩, by decide, rfl,
      by decide⟩
  · refine ⟨{ output := "UNSAT\n", code := 20, solveCalled := false,
              diag := statLines Channel.stdout
                  ((Stat.new.parsed 1).simplified 1) 5 7 none ++
                [⟨Channel.stdout, "UNSATISFIABLE"⟩] }, ?_, ?_, by decide⟩
    · simp [glucoseRun, Stat.print, Stat.new, Stat.parsed, Stat.simplified]
    · simp

/-- C9 (amended): every timing/statistics line carries the "c " comment
prefix, but the channel depends on the engine file: the glucose session
`Stat` (core.rs) writes them to standard output while the minisat
writes them through its `Stat` to standard error; the run-path diagnostic
announcements all go to standard output and carry the "c " prefix except
the pre-solve infeasibility announcement, which is the bare word
"UNSATISFIABLE". -/
theorem diag_lines_channels (st : Stat) (total runT : Nat)
    (mem : Option Nat) (solve : Bool) (ds : RawStatus) (e : Engine)
    (st0 : Stat) (d1 d2 d3 t r : Nat) (m : Option Nat) :
    (∀ l ∈ (corePrint st total runT mem).2.2,
       l.chan = Channel.stdout ∧ l.commentMarked = true) ∧
    (∀ l ∈ (minisatPrint st total runT mem).2.2,
       l.chan = Channel.stderr ∧ l.commentMarked = true) ∧
    (∀ res, (glucoseRun (.ok ()) solve ds e st0 d1 d2 d3 t r m).1 = .ok res →
      ∀ l ∈ res.diag, l.chan = Channel.stdout ∧
        (l.commentMarked = true ∨ l.text = "UNSATISFIABLE")) := by
  refine ⟨?_, ?_, ?_⟩
  · intro l hl
    unfold corePrint Stat.print at hl
    by_cases h : st.printed <;> simp [h] at hl
    exact statLines_chan_comment Channel.stdout st total runT mem l hl
  · intro l hl
    unfold minisatPrint Stat.print at hl
    by_cases h : st.printed <;> simp [h] at hl
    exact statLines_chan_comment Channel.stderr st total runT mem l hl
  · intro res hres l hl
    have hstat : ∀ st1 : Stat, ∀ ann : Line, ann.chan = Channel.stdout →
        (ann.commentMarked = true ∨ ann.text = "UNSATISFIABLE") →
        l ∈ (st1.print Channel.stdout t r m).2.2 ++ [ann] →
        l.chan = Channel.stdout ∧
          (l.commentMarked = true ∨ l.text = "UNSATISFIABLE") := by
      intro st1 ann hann hann2 hmem
      rcases List.mem_append.mp hmem with h | h
      · unfold Stat.print at h
        by_cases hp : st1.printed <;> simp [hp] at h
        have := statLines_chan_comment Channel.stdout st1 t r m l h
        exact ⟨this.1, Or.inl this.2⟩
      · simp at h
        subst h
        exact ⟨hann, hann2⟩
    cases he : e.okay with
    | false =>
        simp [glucoseRun, he] at hres
        subst hres
        exact hstat _ _ rfl (Or.inr rfl) hl
    | true =>
        rcases hret : (if solve then e.solve_limited else ds) with _ | _ | _ <;>
          simp [glucoseRun, he, hret] at hres <;>
          subst hres <;>
          exact hstat _ _ rfl (Or.inl (by decide)) hl

/-- Witness for C9 (amended) at concrete lines of each kind. -/
theorem diag_lines_channels_witness :
    ((⟨Channel.stdout, "c Total time:           5"⟩ : Line).chan =
        Channel.stdout ∧
     (⟨Channel.stdout, "c Total time:           5"⟩ : Line).commentMarked =
        true) ∧
    ((⟨Channel.stderr, "c Total time:           5"⟩ : Line).chan =
        Channel.stderr ∧
     (⟨Channel.stderr, "c Total time:           5"⟩ : Line).commentMarked =
        true) ∧
    ((⟨Channel.stdout, "UNSATISFIABLE"⟩ : Line).chan = Channel.stdout ∧
     ((⟨Channel.stdout, "UNSATISFIABLE"⟩ : Line).commentMarked = true ∨
      (⟨Channel.stdout, "UNSATISFIABLE"⟩ : Line).text = "UNSATISFIABLE")) :=
  ⟨(diag_lines_channels Stat.new 5 7 none true RawStatus.Unknown
      ⟨false, RawStatus.Unknown, 0, fun _ => false⟩ Stat.new 1 1 1 5 7
      none).1 ⟨Channel.stdout, "c Total time:           5"⟩ (by decide),
   (diag_lines_channels Stat.new 5 7 none true RawStatus.Unknown
      ⟨false, RawStatus.Unknown, 0, fun _ => false⟩ Stat.new 1 1 1 5 7
      none).2.1 ⟨Channel.stderr, "c Total time:           5"⟩ (by decide),
   (diag_lines_channels Stat.new 5 7 none true RawStatus.Unknown
      ⟨false, RawStatus.Unknown, 0, fun _ => false⟩ Stat.new 1 1 1 5 7
      none).2.2
     { output := "UNSAT\n", code := 20, solveCalled := false,
       diag := statLines Channel.stdout ((Stat.new.parsed 1).simplified 1)
           5 7 none ++ [⟨Channel.stdout, "UNSATISFIABLE"⟩] }
     (by simp [glucoseRun, Stat.print, Stat.new, Stat.parsed, Stat.simplified])
     ⟨Channel.stdout, "UNSATISFIABLE"⟩ (by simp)⟩

end Satgalaxy
